import Mathlib

/-!
# WidgetTabControl (flare-engine): a shallow embedding

The tab strip widget of `src/WidgetTabControl.cpp`, translated function by
function.

Conventions of the embedding

* `unsigned` values are natural numbers below `UINT_MOD = 2^32`; every
  `unsigned` operation that can wrap (`index+1`, `++active_tab`,
  `--active_tab`, `static_cast<unsigned>(tabs.size())-1`) is written with an
  explicit `% UINT_MOD`.  `tabs.size()` is a `size_t`, so comparisons between an
  `unsigned` and a size are comparisons of natural numbers.
* `int` values (rectangle coordinates, padding, image width, the render
  cursor) are mathematical integers: signed overflow is undefined in C++ and
  is not modelled.
* `active_tab` is an `unsigned` data member (its declaration is in the header).
* `std::vector` is `List`; indexing a vector out of range is undefined in C++
  and is `none` here.
* collaborators that do not live in this file (`eset`, `font`, `inpt`,
  the sprite) are passed as values, see `Env`.
-/

namespace WidgetTabControl

/-- Modulus of the C++ type `unsigned` (32 bits). -/
def UINT_MOD : Nat := 4294967296

/-- Rectangle `Rect` of the engine: `int x, y, w, h`, zero-initialised. -/
structure Rect where
  x : Int
  y : Int
  w : Int
  h : Int
deriving DecidableEq, Repr

/-- Point `Point` of the engine: `int x, y`. -/
structure Point where
  x : Int
  y : Int
deriving DecidableEq, Repr

/-- Colour value returned by `font->getColor`. -/
structure Color where
  r : Nat
  g : Nat
  b : Nat
deriving DecidableEq, Repr

/-- Horizontal justification constants of `FontEngine`. -/
inductive Justify where
  | JUSTIFY_LEFT
  | JUSTIFY_RIGHT
  | JUSTIFY_CENTER
deriving DecidableEq, Repr

/-- Vertical alignment constants of the label. -/
inductive VAlign where
  | VALIGN_CENTER
  | VALIGN_TOP
  | VALIGN_BOTTOM
deriving DecidableEq, Repr

/-- What `WidgetLabel::set(x, y, justify, valign, text, color)` stores. -/
structure WidgetLabel where
  x : Int
  y : Int
  justify : Justify
  valign : VAlign
  text : String
  color : Color
deriving DecidableEq, Repr

/-- A default-constructed `Rect`. -/
def Rect.zero : Rect := ⟨0, 0, 0, 0⟩

/-- A default-constructed `WidgetLabel`. -/
def WidgetLabel.empty : WidgetLabel :=
  ⟨0, 0, Justify.JUSTIFY_LEFT, VAlign.VALIGN_TOP, "", ⟨0, 0, 0⟩⟩

/-- The data members of `WidgetTabControl`. -/
structure State where
  titles : List String
  tabs : List Rect
  active_labels : List WidgetLabel
  inactive_labels : List WidgetLabel
  active_tab : Nat
  tabs_area : Rect
  color_normal : Color
  color_disabled : Color
deriving DecidableEq, Repr

/-- The collaborators read by the widget: `eset->widgets.tab_padding`,
`font->calc_width` and `active_tab_surface->getGraphicsWidth/Height`. -/
structure Env where
  tab_padding_x : Int
  tab_padding_y : Int
  calc_width : String → Int
  gfx_width : Int
  gfx_height : Int

/-- The constructor: no tabs, `active_tab(0)`, the two colours looked up in the font. -/
def construct (color_normal color_disabled : Color) : State :=
  ⟨[], [], [], [], 0, Rect.zero, color_normal, color_disabled⟩

/-- `std::vector::resize(n)`: truncate, or pad with default-constructed values. -/
def resize {α : Type} (d : α) (l : List α) (n : Nat) : List α :=
  l.take n ++ List.replicate (n - l.length) d

/-- `setTabTitle(index, title)`.  `index+1` is computed in `unsigned`; the final
`titles[index] = title` is an unchecked vector access. -/
def setTabTitle (s : State) (index : Nat) (title : String) : Option State :=
  let n := (index + 1) % UINT_MOD
  let s1 : State :=
    if n > s.titles.length then
      { s with
        titles := resize "" s.titles n,
        tabs := resize Rect.zero s.tabs n,
        active_labels := resize WidgetLabel.empty s.active_labels n,
        inactive_labels := resize WidgetLabel.empty s.inactive_labels n }
    else s
  if index < s1.titles.length then
    some { s1 with titles := s1.titles.set index title }
  else none

/-- `getActiveTab()`: `active_tab`, an `unsigned`, returned as `int`. -/
def getActiveTab (s : State) : Int :=
  if s.active_tab < 2147483648 then (s.active_tab : Int) else (s.active_tab : Int) - 4294967296

/-- `setActiveTab(tab)`. -/
def setActiveTab (s : State) (tab : Nat) : State :=
  if tab > s.tabs.length then
    { s with active_tab := 0 }
  else if tab = s.tabs.length then
    { s with active_tab := (s.tabs.length % UINT_MOD + UINT_MOD - 1) % UINT_MOD }
  else
    { s with active_tab := tab }

/-- `getNext()`: `setActiveTab(++active_tab)`. -/
def getNext (s : State) : State :=
  let t := (s.active_tab + 1) % UINT_MOD
  setActiveTab { s with active_tab := t } t

/-- `getPrev()`: `setActiveTab(--active_tab)`. -/
def getPrev (s : State) : State :=
  let t := (s.active_tab + UINT_MOD - 1) % UINT_MOD
  setActiveTab { s with active_tab := t } t

/-- `getTabHeight()`, with the sprite loaded. -/
def getTabHeight (env : Env) : Int := env.gfx_height

/-- Modelled from the spec: `isWithinRect` of the engine utilities, which is not part of
this file; the point-in-rectangle hit test on a rectangle `(x, y, width, height)`. -/
def isWithinRect (r : Rect) (target : Point) : Bool :=
  decide (target.x ≥ r.x) && decide (target.y ≥ r.y) &&
    decide (target.x < r.x + r.w) && decide (target.y < r.y + r.h)

/-- Body of the `for` loop of `updateHeader` at index `i`.  Every vector access
(`tabs[i]`, `tabs[i-1]`, `titles[i]`, `active_labels[i]`, `inactive_labels[i]`) is
checked; `h/2` is the truncating division of C++. -/
def updateHeaderBody (env : Env) (i : Nat) (s : State) : Option State := do
  let _ ← s.tabs[i]?
  let x ← (if i = 0 then some s.tabs_area.x else (s.tabs[i - 1]?).map (fun p => p.x + p.w))
  let title ← s.titles[i]?
  let _ ← s.active_labels[i]?
  let _ ← s.inactive_labels[i]?
  let t : Rect :=
    ⟨x, s.tabs_area.y, env.tab_padding_x + env.calc_width title + env.tab_padding_x, s.tabs_area.h⟩
  let lx : Int := t.x + env.tab_padding_x
  let ly : Int := t.y + Int.tdiv t.h 2 + env.tab_padding_y
  some { s with
    tabs := s.tabs.set i t,
    tabs_area := ⟨s.tabs_area.x, s.tabs_area.y, s.tabs_area.w + t.w, s.tabs_area.h⟩,
    active_labels :=
      s.active_labels.set i ⟨lx, ly, Justify.JUSTIFY_LEFT, VAlign.VALIGN_CENTER, title, s.color_normal⟩,
    inactive_labels :=
      s.inactive_labels.set i ⟨lx, ly, Justify.JUSTIFY_LEFT, VAlign.VALIGN_CENTER, title, s.color_disabled⟩ }

/-- The loop `for (unsigned i=0; i<tabs.size(); i++)` of `updateHeader`: the first
argument counts the iterations left, the second is `i`. -/
def updateHeaderLoop (env : Env) : Nat → Nat → State → Option State
  | 0, _, s => some s
  | fuel + 1, i, s => (updateHeaderBody env i s).bind (updateHeaderLoop env fuel (i + 1))

/-- `updateHeader()`: reset `tabs_area.w`, then lay the tabs out left to right. -/
def updateHeader (env : Env) (s : State) : Option State :=
  updateHeaderLoop env s.tabs.length 0
    { s with tabs_area := ⟨s.tabs_area.x, s.tabs_area.y, 0, s.tabs_area.h⟩ }

/-- `setMainArea(x, y)`. -/
def setMainArea (env : Env) (s : State) (x y : Int) : Option State :=
  updateHeader env { s with tabs_area := ⟨x, y, 0, getTabHeight env⟩ }

/-- The scan `for (unsigned i=0; i<tabs.size(); i++) if (isWithinRect(tabs[i], mouse))`
of `logic`: the index of the first tab that contains the pointer, counted from `i`. -/
def logicScan (mouse : Point) : List Rect → Nat → Option Nat
  | [], _ => none
  | r :: rs, i => if isWithinRect r mouse then some i else logicScan mouse rs (i + 1)

/-- `logic(x, y)`; `pressed` is `inpt->pressing[Input::MAIN1]`. -/
def logic (s : State) (x y : Int) (pressed : Bool) : State :=
  if isWithinRect s.tabs_area ⟨x, y⟩ && pressed then
    match logicScan ⟨x, y⟩ s.tabs 0 with
    | some i => { s with active_tab := i }
    | none => s
  else s

/-- One render of a tab sprite: which sprite (`i == active_tab`), the clip `src`
and the destination `dest`. -/
structure Slice where
  active : Bool
  src : Rect
  dest : Point
deriving DecidableEq, Repr

/-- Value of `src.w` chosen by an iteration of the tiling loop of `renderTab`, before
the overshoot shrink: left edge + middle when the cursor is 0, only middle otherwise. -/
def sliceWidth (pad gfx_width : Int) (tab : Rect) (render_cursor : Int) : Int :=
  if render_cursor = 0 then
    if tab.w - pad > gfx_width - pad then gfx_width - pad else tab.w - pad
  else
    if tab.w - pad * 2 > gfx_width - pad * 2 then gfx_width - pad * 2 else tab.w - pad * 2

/-- The slice an iteration of the tiling loop renders when it starts with the given
cursor: `dest.x`, `src.x`, and `src.w` after the overshoot shrink. -/
def tileSlice (pad gfx_width : Int) (tab : Rect) (active : Bool) (render_cursor : Int) : Slice :=
  let src_w := sliceWidth pad gfx_width tab render_cursor
  let cursor := render_cursor + src_w
  let src_w2 := if cursor > tab.w then tab.w - (cursor - src_w) else src_w
  ⟨active, ⟨if render_cursor = 0 then 0 else pad, 0, src_w2, tab.h⟩, ⟨tab.x + render_cursor, tab.y⟩⟩

/-- The loop `while (render_cursor < width_to_render)` of `renderTab`, run for at most
the given number of iterations from the given cursor: the cursor reached and the slices
rendered, in order. -/
def renderTabLoop (pad gfx_width : Int) (tab : Rect) (active : Bool) : Nat → Int → Int × List Slice
  | 0, render_cursor => (render_cursor, [])
  | fuel + 1, render_cursor =>
    if render_cursor < tab.w - pad then
      let r := renderTabLoop pad gfx_width tab active fuel
        (render_cursor + sliceWidth pad gfx_width tab render_cursor)
      (r.1, tileSlice pad gfx_width tab active render_cursor :: r.2)
    else (render_cursor, [])

/-- The right-edge slice rendered after the tiling loop. -/
def edgeSlice (pad gfx_width : Int) (tab : Rect) (active : Bool) : Slice :=
  ⟨active, ⟨gfx_width - pad, 0, pad, tab.h⟩, ⟨tab.x + tab.w - pad, tab.y⟩⟩

/-- All sprite renders of `renderTab` for one tab: the slices of the tiling loop, then
the right edge.  `none` when the loop has not ended within `fuel` iterations. -/
def renderTabSlices (pad gfx_width : Int) (tab : Rect) (active : Bool) (fuel : Nat) :
    Option (List Slice) :=
  let r := renderTabLoop pad gfx_width tab active fuel 0
  if r.1 < tab.w - pad then none
  else some (r.2 ++ [edgeSlice pad gfx_width tab active])

/-- What `renderTab` hands to the render device. -/
inductive RenderOp where
  | sprite (sl : Slice)
  | label (l : WidgetLabel)
deriving DecidableEq, Repr

/-- `renderTab(number)`: the tab background slices, then the label of the tab. -/
def renderTab (env : Env) (s : State) (number : Nat) (fuel : Nat) : Option (List RenderOp) := do
  let tab ← s.tabs[number]?
  let slices ← renderTabSlices env.tab_padding_x env.gfx_width tab (decide (number = s.active_tab)) fuel
  let l ← (if number = s.active_tab then s.active_labels[number]? else s.inactive_labels[number]?)
  some (slices.map RenderOp.sprite ++ [RenderOp.label l])

/-- Right end of a slice on screen: `dest.x + src.w`. -/
def Slice.right (sl : Slice) : Int := sl.dest.x + sl.src.w

/-- The public operations that change the widget. -/
inductive Op where
  | setTabTitle (index : Nat) (title : String)
  | setActiveTab (tab : Nat)
  | getNext
  | getPrev
  | updateHeader
  | setMainArea (x y : Int)
  | logic (x y : Int) (pressed : Bool)
deriving DecidableEq, Repr

/-- One call on the widget; `none` when the call runs into an out-of-range vector access. -/
def step (env : Env) (s : State) : Op → Option State
  | Op.setTabTitle index title => setTabTitle s index title
  | Op.setActiveTab tab => some (setActiveTab s tab)
  | Op.getNext => some (getNext s)
  | Op.getPrev => some (getPrev s)
  | Op.updateHeader => updateHeader env s
  | Op.setMainArea x y => setMainArea env s x y
  | Op.logic x y pressed => some (logic s x y pressed)

/-- A sequence of calls, in order. -/
def run (env : Env) : List Op → State → Option State
  | [], s => some s
  | op :: ops, s => (step env s op).bind (run env ops)

/-- Closed form of the layout, used in the proofs: the rectangles of a row of tabs with
the given titles, starting at `x`. -/
def layoutRects (env : Env) (y h : Int) : Int → List String → List Rect
  | _, [] => []
  | x, t :: ts =>
    ⟨x, y, env.tab_padding_x + env.calc_width t + env.tab_padding_x, h⟩ ::
      layoutRects env y h (x + (env.tab_padding_x + env.calc_width t + env.tab_padding_x)) ts

/-- Sum of the widths `updateHeader` gives to the given titles. -/
def titlesWidth (env : Env) (ts : List String) : Int :=
  (ts.map (fun t => env.tab_padding_x + env.calc_width t + env.tab_padding_x)).sum

/-- A sequence of `setTabTitle(index, title)` calls, in order. -/
def setTabTitles : List (Nat × String) → State → Option State
  | [], s => some s
  | c :: rest, s => (setTabTitle s c.1 c.2).bind (setTabTitles rest)

/-- The active index is the index of a tab of a non-empty strip of fewer than `2^32`
tabs. -/
def ActiveValid (s : State) : Prop :=
  s.tabs.length < UINT_MOD ∧ s.active_tab < s.tabs.length

/-- The four vectors of the widget have one common length. -/
def WF (s : State) : Prop :=
  s.titles.length = s.tabs.length ∧ s.active_labels.length = s.tabs.length ∧
    s.inactive_labels.length = s.tabs.length

/-- The environment of the worked example: padding 4, measured widths 6, 10, 14 for
titles of 1, 2, 3 characters, a 20 pixel wide and 10 pixel high tab image. -/
def exampleEnv : Env := ⟨4, 0, fun t => 4 * t.length + 2, 20, 10⟩

/-- A freshly constructed widget. -/
def fresh : State := construct ⟨255, 255, 255⟩ ⟨128, 128, 128⟩

/-- The calls that build the strip of the worked example: titles "A", "BB", "CCC", then
the origin (0,0), which lays the strip out. -/
def exampleCalls : List Op :=
  [Op.setTabTitle 0 "A", Op.setTabTitle 1 "BB", Op.setTabTitle 2 "CCC", Op.setMainArea 0 0]

/-- The strip of the worked example after the three `setTabTitle` calls, before layout. -/
def exampleTitled : State := (run exampleEnv (exampleCalls.take 3) fresh).getD fresh

/-- The strip of the worked example with its origin and height set, before layout. -/
def exampleOrigin : State :=
  { exampleTitled with tabs_area := ⟨0, 0, 0, getTabHeight exampleEnv⟩ }

/-- Invariant of the render cursor at the head of the tiling loop: it is 0, or it is
positive and either the tab is wider than the image or the loop is about to end. -/
def CursorOk (pad gfx_width : Int) (tab : Rect) (c : Int) : Prop :=
  c = 0 ∨ (0 < c ∧ (gfx_width < tab.w ∨ tab.w - pad ≤ c))

/-- The strip of the worked example, laid out. -/
def exampleStrip : State := (run exampleEnv exampleCalls fresh).getD fresh

/-- Width `updateHeader` gives to a tab with the given title. -/
def tabWidth (env : Env) (title : String) : Int :=
  env.tab_padding_x + env.calc_width title + env.tab_padding_x

end WidgetTabControl

namespace WidgetTabControl

/-! ## setActiveTab, getNext, getPrev -/

theorem uint_pred (n : Nat) (h0 : 0 < n) (hn : n < UINT_MOD) :
    (n % UINT_MOD + UINT_MOD - 1) % UINT_MOD = n - 1 := by
  unfold UINT_MOD at *
  omega

/-- On a non-empty strip `setActiveTab` is the three-way clamp, and touches only
`active_tab`. -/
theorem setActiveTab_nonempty (s : State) (n : Nat) (h0 : 0 < s.tabs.length)
    (hn : s.tabs.length < UINT_MOD) :
    setActiveTab s n =
      { s with active_tab :=
          if n < s.tabs.length then n else if n = s.tabs.length then s.tabs.length - 1 else 0 } := by
  unfold setActiveTab
  by_cases h1 : n > s.tabs.length
  · have h2 : ¬ n < s.tabs.length := by omega
    have h3 : ¬ n = s.tabs.length := by omega
    simp [h1, h2, h3]
  · by_cases h2 : n = s.tabs.length
    · subst h2
      simp [uint_pred _ h0 hn]
    · have h3 : n < s.tabs.length := by omega
      simp [h1, h2, h3]

theorem getNext_below (s : State) (h : s.active_tab + 1 < s.tabs.length)
    (hn : s.tabs.length < UINT_MOD) :
    getNext s = { s with active_tab := s.active_tab + 1 } := by
  have hm : (s.active_tab + 1) % UINT_MOD = s.active_tab + 1 :=
    Nat.mod_eq_of_lt (by omega)
  unfold getNext
  simp only [hm]
  rw [setActiveTab_nonempty _ _ (by simp; omega) (by simpa using hn)]
  simp [h]

theorem getNext_last (s : State) (h : s.active_tab + 1 = s.tabs.length)
    (hn : s.tabs.length < UINT_MOD) :
    getNext s = s := by
  obtain ⟨ti, ta, al, il, a, ar, cn, cd⟩ := s
  simp only at h hn
  have hm : (a + 1) % UINT_MOD = a + 1 := Nat.mod_eq_of_lt (by omega)
  unfold getNext
  simp only [hm]
  rw [setActiveTab_nonempty _ _ (by simp only; omega) (by simpa using hn)]
  have h1 : ¬ a + 1 < ta.length := by omega
  have h2 : (if a + 1 < ta.length then a + 1
      else if a + 1 = ta.length then ta.length - 1 else 0) = a := by
    rw [if_neg h1, if_pos h]; omega
  dsimp only
  rw [h2]

theorem getNext_iterate (s : State) (h0 : 0 < s.tabs.length) (hn : s.tabs.length < UINT_MOD)
    (ha : s.active_tab = 0) (k : Nat) :
    getNext^[k] s = { s with active_tab := min k (s.tabs.length - 1) } := by
  induction k with
  | zero => cases s; simp at ha ⊢; exact ha
  | succ k ih =>
    rw [Function.iterate_succ_apply', ih]
    by_cases hk : k + 1 < s.tabs.length
    · rw [getNext_below _ (by simp; omega) (by simpa using hn)]
      simp
      omega
    · rw [getNext_last _ (by simp; omega) (by simpa using hn)]
      simp
      omega

theorem getPrev_zero (s : State) (hn : s.tabs.length < UINT_MOD - 1) (ha : s.active_tab = 0) :
    getPrev s = s := by
  unfold getPrev setActiveTab
  have hm : (s.active_tab + UINT_MOD - 1) % UINT_MOD = UINT_MOD - 1 := by
    rw [ha]; unfold UINT_MOD; rfl
  simp only [hm]
  have h1 : UINT_MOD - 1 > s.tabs.length := hn
  cases s
  simp at h1 ha ⊢
  simp [h1, ha]

/-- C2 (counterexample): with the three tabs of the worked example, three calls of
`getNext` from tab 0 end on tab 2, not on tab 0. -/
theorem C2_getNext_three_calls :
    (run exampleEnv (exampleCalls ++ [Op.getNext, Op.getNext, Op.getNext]) fresh).map getActiveTab
      = some 2 := by
  rfl

/-- C2 (amended): `getNext` saturates at the last tab.  For a strip with `n ≥ 1` tabs
(`n < 2^32`) whose active tab is 0, `k` calls of `getNext` leave the active index at
`min k (n-1)` and change nothing else; in particular `n` calls end on the last tab. -/
theorem C2_getNext_saturates (s : State) (h0 : 1 ≤ s.tabs.length)
    (hn : s.tabs.length < UINT_MOD) (ha : s.active_tab = 0) :
    (∀ k, getNext^[k] s = { s with active_tab := min k (s.tabs.length - 1) }) ∧
      (getNext^[s.tabs.length] s).active_tab = s.tabs.length - 1 := by
  refine ⟨getNext_iterate s h0 hn ha, ?_⟩
  rw [getNext_iterate s h0 hn ha]
  simp

/-- C2 (amended), at the strip of the worked example: three tabs, three calls of
`getNext` from tab 0 end on tab 2. -/
theorem C2_getNext_saturates_witness :
    (1 ≤ exampleStrip.tabs.length ∧ exampleStrip.tabs.length < UINT_MOD ∧
      exampleStrip.active_tab = 0) ∧
    ((∀ k, getNext^[k] exampleStrip =
        { exampleStrip with active_tab := min k (exampleStrip.tabs.length - 1) }) ∧
      (getNext^[exampleStrip.tabs.length] exampleStrip).active_tab =
        exampleStrip.tabs.length - 1) ∧
    getActiveTab (getNext (getNext (getNext exampleStrip))) = 2 :=
  ⟨by decide, C2_getNext_saturates exampleStrip (by decide) (by decide) (by decide), rfl⟩

/-- C3 (counterexample): with the three tabs of the worked example and tab 0 active,
`getPrev` leaves tab 0 active; it does not move to the last tab, 2. -/
theorem C3_getPrev_three_tabs :
    (run exampleEnv exampleCalls fresh).map getActiveTab = some 0 ∧
    (run exampleEnv (exampleCalls ++ [Op.getPrev]) fresh).map getActiveTab = some 0 ∧
    (run exampleEnv exampleCalls fresh).map (fun s => s.tabs.length - 1) = some 2 := by
  refine ⟨?_, ?_, ?_⟩ <;> rfl

/-- C3 (amended): `getPrev` at tab 0 stays at tab 0.  For a strip with `n ≥ 1` tabs
(`n < 2^32 - 1`) whose active tab is 0, the decrement wraps to `2^32 - 1`, which exceeds
the count, so `setActiveTab` stores 0; nothing else changes. -/
theorem C3_getPrev_stays_at_zero (s : State) (h0 : 1 ≤ s.tabs.length)
    (hn : s.tabs.length < UINT_MOD - 1) (ha : s.active_tab = 0) :
    getPrev s = s ∧ (getPrev s).active_tab = 0 := by
  have _ := h0
  have h := getPrev_zero s hn ha
  rw [h]
  exact ⟨rfl, ha⟩

/-- C3 (amended), at the strip of the worked example. -/
theorem C3_getPrev_stays_at_zero_witness :
    (1 ≤ exampleStrip.tabs.length ∧ exampleStrip.tabs.length < UINT_MOD - 1 ∧
      exampleStrip.active_tab = 0) ∧
    (getPrev exampleStrip = exampleStrip ∧ (getPrev exampleStrip).active_tab = 0) ∧
    getActiveTab (getPrev exampleStrip) = 0 :=
  ⟨by decide, C3_getPrev_stays_at_zero exampleStrip (by decide) (by decide) (by decide), rfl⟩

/-- C4 (evaluation at the failing input): from a freshly constructed strip,
`setActiveTab(0)` followed by `setTabTitle(0, "A")` reaches a state with one tab whose
active index is `4294967295`, outside `[0, 1)`. -/
theorem C4_active_index_out_of_range :
    (run exampleEnv [Op.setActiveTab 0, Op.setTabTitle 0 "A"] fresh).map
        (fun s => (s.tabs.length, s.active_tab, decide (s.active_tab < s.tabs.length))) =
      some (1, 4294967295, false) := by
  rfl

/-- C5 (evaluation at the failing input): on a freshly constructed strip,
`setTabTitle(4294967295, "A")` computes `index+1 = 0` in `unsigned`, does not grow the
vectors, and writes `titles[4294967295]` out of range. -/
theorem C5_setTabTitle_max_index :
    (4294967295 + 1) % UINT_MOD = 0 ∧ setTabTitle fresh 4294967295 "A" = none := by
  decide

/-! ## updateHeader -/

theorem updateHeaderBody_eq (env : Env) (s : State) (i : Nat) (p : Rect) (x : Int) (t : String)
    (la lb : WidgetLabel) (hp : s.tabs[i]? = some p)
    (hx : (if i = 0 then some s.tabs_area.x else (s.tabs[i - 1]?).map (fun q => q.x + q.w))
      = some x)
    (ht : s.titles[i]? = some t) (ha : s.active_labels[i]? = some la)
    (hb : s.inactive_labels[i]? = some lb) :
    updateHeaderBody env i s = some { s with
      tabs := s.tabs.set i
        ⟨x, s.tabs_area.y, env.tab_padding_x + env.calc_width t + env.tab_padding_x, s.tabs_area.h⟩,
      tabs_area := ⟨s.tabs_area.x, s.tabs_area.y,
        s.tabs_area.w + (env.tab_padding_x + env.calc_width t + env.tab_padding_x), s.tabs_area.h⟩,
      active_labels := s.active_labels.set i
        ⟨x + env.tab_padding_x, s.tabs_area.y + Int.tdiv s.tabs_area.h 2 + env.tab_padding_y,
          Justify.JUSTIFY_LEFT, VAlign.VALIGN_CENTER, t, s.color_normal⟩,
      inactive_labels := s.inactive_labels.set i
        ⟨x + env.tab_padding_x, s.tabs_area.y + Int.tdiv s.tabs_area.h 2 + env.tab_padding_y,
          Justify.JUSTIFY_LEFT, VAlign.VALIGN_CENTER, t, s.color_disabled⟩ } := by
  unfold updateHeaderBody
  rw [hp, hx, ht, ha, hb]
  rfl

theorem getElem?_some_of_lt {α : Type} (l : List α) (i : Nat) (h : i < l.length) :
    ∃ a, l[i]? = some a :=
  ⟨l[i], List.getElem?_eq_getElem h⟩

theorem getElem?_append_length {α : Type} (pre post : List α) (a : α) :
    (pre ++ a :: post)[pre.length]? = some a := by
  induction pre with
  | nil => simp
  | cons b bs ih => simpa using ih

theorem updateHeaderLoop_spec (env : Env) (trest : List String) :
    ∀ (tpre : List String) (pre post : List Rect) (s : State) (xn : Int),
      s.titles = tpre ++ trest → s.tabs = pre ++ post → pre.length = tpre.length →
      post.length = trest.length → s.active_labels.length = s.tabs.length →
      s.inactive_labels.length = s.tabs.length →
      (if pre.length = 0 then some s.tabs_area.x
        else (s.tabs[pre.length - 1]?).map (fun q => q.x + q.w)) = some xn →
      ∃ s', updateHeaderLoop env trest.length pre.length s = some s' ∧
        s'.titles = s.titles ∧
        s'.tabs = pre ++ layoutRects env s.tabs_area.y s.tabs_area.h xn trest ∧
        s'.tabs_area = ⟨s.tabs_area.x, s.tabs_area.y,
          s.tabs_area.w + titlesWidth env trest, s.tabs_area.h⟩ ∧
        s'.active_tab = s.active_tab ∧
        s'.active_labels.length = s.active_labels.length ∧
        s'.inactive_labels.length = s.inactive_labels.length ∧
        s'.color_normal = s.color_normal ∧ s'.color_disabled = s.color_disabled := by
  induction trest with
  | nil =>
    intro tpre pre post s xn _ hs _ hpost _ _ _
    have hnil : post = [] := List.length_eq_zero.mp (by simpa using hpost)
    subst hnil
    refine ⟨s, rfl, rfl, ?_, ?_, rfl, rfl, rfl, rfl, rfl⟩
    · simpa [layoutRects] using hs
    · simp [titlesWidth]
  | cons t ts ih =>
    intro tpre pre post s xn ht hs hl hpost ha hb hx
    cases post with
    | nil => simp at hpost
    | cons p ps =>
      have hlen : s.tabs.length = pre.length + (ps.length + 1) := by rw [hs]; simp
      have hp : s.tabs[pre.length]? = some p := by rw [hs]; exact getElem?_append_length _ _ _
      have htt : s.titles[pre.length]? = some t := by
        rw [ht, hl]; exact getElem?_append_length _ _ _
      obtain ⟨la, hla⟩ := getElem?_some_of_lt s.active_labels pre.length (by omega)
      obtain ⟨lb, hlb⟩ := getElem?_some_of_lt s.inactive_labels pre.length (by omega)
      have hbody := updateHeaderBody_eq env s pre.length p xn t la lb hp hx htt hla hlb
      have hset : s.tabs.set pre.length
          ⟨xn, s.tabs_area.y, env.tab_padding_x + env.calc_width t + env.tab_padding_x,
            s.tabs_area.h⟩ =
          (pre ++ [⟨xn, s.tabs_area.y,
            env.tab_padding_x + env.calc_width t + env.tab_padding_x, s.tabs_area.h⟩]) ++ ps := by
        rw [hs]; simp
      have hx2 : (if (pre ++ [(⟨xn, s.tabs_area.y,
            env.tab_padding_x + env.calc_width t + env.tab_padding_x, s.tabs_area.h⟩ : Rect)]).length = 0
          then some s.tabs_area.x
          else ((s.tabs.set pre.length
            ⟨xn, s.tabs_area.y, env.tab_padding_x + env.calc_width t + env.tab_padding_x,
              s.tabs_area.h⟩)[(pre ++ [(⟨xn, s.tabs_area.y,
            env.tab_padding_x + env.calc_width t + env.tab_padding_x,
              s.tabs_area.h⟩ : Rect)]).length - 1]?).map (fun q => q.x + q.w)) =
          some (xn + (env.tab_padding_x + env.calc_width t + env.tab_padding_x)) := by
        rw [if_neg (by simp), hset, List.append_assoc]
        have h1 : (pre ++ [(⟨xn, s.tabs_area.y,
            env.tab_padding_x + env.calc_width t + env.tab_padding_x, s.tabs_area.h⟩ : Rect)]).length
              - 1 = pre.length := by simp
        rw [h1]
        show Option.map _ ((pre ++ _ :: ps)[pre.length]?) = _
        rw [getElem?_append_length]
        rfl
      obtain ⟨s', h1, h2, h3, h4, h5, h6, h7, h8, h9⟩ := ih (tpre ++ [t])
        (pre ++ [⟨xn, s.tabs_area.y,
            env.tab_padding_x + env.calc_width t + env.tab_padding_x, s.tabs_area.h⟩]) ps
        { s with
          tabs := s.tabs.set pre.length
            ⟨xn, s.tabs_area.y, env.tab_padding_x + env.calc_width t + env.tab_padding_x,
              s.tabs_area.h⟩,
          tabs_area := ⟨s.tabs_area.x, s.tabs_area.y,
            s.tabs_area.w + (env.tab_padding_x + env.calc_width t + env.tab_padding_x),
            s.tabs_area.h⟩,
          active_labels := s.active_labels.set pre.length
            ⟨xn + env.tab_padding_x,
              s.tabs_area.y + Int.tdiv s.tabs_area.h 2 + env.tab_padding_y,
              Justify.JUSTIFY_LEFT, VAlign.VALIGN_CENTER, t, s.color_normal⟩,
          inactive_labels := s.inactive_labels.set pre.length
            ⟨xn + env.tab_padding_x,
              s.tabs_area.y + Int.tdiv s.tabs_area.h 2 + env.tab_padding_y,
              Justify.JUSTIFY_LEFT, VAlign.VALIGN_CENTER, t, s.color_disabled⟩ }
        (xn + (env.tab_padding_x + env.calc_width t + env.tab_padding_x))
        (by simp [ht]) hset (by simp [hl]) (by simpa using hpost)
        (by simp [ha]) (by simp [hb]) hx2
      refine ⟨s', ?_, ?_, ?_, ?_, ?_, ?_, ?_, ?_, ?_⟩
      · have hfuel : (t :: ts).length = ts.length + 1 := rfl
        rw [hfuel]
        simp only [updateHeaderLoop, hbody, Option.bind]
        simpa using h1
      · simpa using h2
      · rw [h3]; simp [layoutRects]
      · rw [h4]; simp [titlesWidth]; ring
      · simpa using h5
      · simpa using h6
      · simpa using h7
      · simpa using h8
      · simpa using h9

theorem updateHeader_spec (env : Env) (s : State) (hwf : WF s) :
    ∃ s', updateHeader env s = some s' ∧ s'.titles = s.titles ∧
      s'.tabs = layoutRects env s.tabs_area.y s.tabs_area.h s.tabs_area.x s.titles ∧
      s'.tabs_area = ⟨s.tabs_area.x, s.tabs_area.y, titlesWidth env s.titles, s.tabs_area.h⟩ ∧
      s'.active_tab = s.active_tab ∧
      s'.active_labels.length = s.active_labels.length ∧
      s'.inactive_labels.length = s.inactive_labels.length ∧
      s'.color_normal = s.color_normal ∧ s'.color_disabled = s.color_disabled := by
  obtain ⟨h1, h2, h3⟩ := hwf
  have h := updateHeaderLoop_spec env s.titles [] [] s.tabs
    { s with tabs_area := ⟨s.tabs_area.x, s.tabs_area.y, 0, s.tabs_area.h⟩ } s.tabs_area.x
    rfl rfl rfl h1.symm h2 h3 (by simp)
  obtain ⟨s', e1, e2, e3, e4, e5, e6, e7, e8, e9⟩ := h
  refine ⟨s', ?_, e2, ?_, ?_, e5, e6, e7, e8, e9⟩
  · unfold updateHeader
    rw [← h1]
    simpa using e1
  · simpa using e3
  · simpa using e4

theorem layoutRects_length (env : Env) (y h : Int) (ts : List String) :
    ∀ x, (layoutRects env y h x ts).length = ts.length := by
  induction ts with
  | nil => intro x; rfl
  | cons t ts ih => intro x; simp [layoutRects, ih]

theorem layoutRects_head (env : Env) (y h x : Int) (ts : List String) (r : Rect)
    (hr : (layoutRects env y h x ts)[0]? = some r) : r.x = x := by
  cases ts with
  | nil => simp [layoutRects] at hr
  | cons t ts =>
    simp [layoutRects] at hr
    rw [← hr]

theorem layoutRects_adjacent (env : Env) (y h : Int) (ts : List String) :
    ∀ (x : Int) (i : Nat) (a b : Rect), (layoutRects env y h x ts)[i]? = some a →
      (layoutRects env y h x ts)[i + 1]? = some b → b.x = a.x + a.w := by
  induction ts with
  | nil => intro x i a b ha; simp [layoutRects] at ha
  | cons t ts ih =>
    intro x i a b ha hb
    cases i with
    | zero =>
      simp [layoutRects] at ha hb
      have hb2 := layoutRects_head env y h _ ts b hb
      rw [hb2, ← ha]
    | succ i =>
      simp [layoutRects] at ha hb
      exact ih _ i a b ha hb

theorem layoutRects_width (env : Env) (y h : Int) (ts : List String) :
    ∀ (x : Int) (i : Nat) (r : Rect), (layoutRects env y h x ts)[i]? = some r →
      ∃ t, ts[i]? = some t ∧
        r.w = env.tab_padding_x + env.calc_width t + env.tab_padding_x ∧ r.y = y ∧ r.h = h := by
  induction ts with
  | nil => intro x i r hr; simp [layoutRects] at hr
  | cons t ts ih =>
    intro x i r hr
    cases i with
    | zero =>
      simp [layoutRects] at hr
      refine ⟨t, by simp, ?_, ?_, ?_⟩ <;> rw [← hr]
    | succ i =>
      simp [layoutRects] at hr
      obtain ⟨u, hu, hw⟩ := ih _ i r hr
      exact ⟨u, by simpa using hu, hw⟩

theorem layoutRects_sum (env : Env) (y h : Int) (ts : List String) :
    ∀ x, ((layoutRects env y h x ts).map Rect.w).sum = titlesWidth env ts := by
  induction ts with
  | nil => intro x; rfl
  | cons t ts ih =>
    intro x
    simp [layoutRects, titlesWidth] at ih ⊢
    rw [ih]

theorem layoutRects_bounds (env : Env) (y h : Int)
    (hw : ∀ t, 0 ≤ env.tab_padding_x + env.calc_width t + env.tab_padding_x)
    (ts : List String) :
    ∀ (x : Int) (r : Rect), r ∈ layoutRects env y h x ts →
      x ≤ r.x ∧ r.x + r.w ≤ x + titlesWidth env ts ∧ r.y = y ∧ r.h = h := by
  induction ts with
  | nil => intro x r hr; simp [layoutRects] at hr
  | cons t ts ih =>
    intro x r hr
    have hsum : titlesWidth env (t :: ts) =
        (env.tab_padding_x + env.calc_width t + env.tab_padding_x) + titlesWidth env ts := by
      simp [titlesWidth]
    have hrest : 0 ≤ titlesWidth env ts := by
      unfold titlesWidth
      apply List.sum_nonneg
      intro z hz
      simp at hz
      obtain ⟨u, _, hu⟩ := hz
      rw [← hu]
      exact hw u
    have ht := hw t
    simp [layoutRects] at hr
    rcases hr with hr | hr
    · subst hr
      refine ⟨le_refl _, ?_, rfl, rfl⟩
      show x + (env.tab_padding_x + env.calc_width t + env.tab_padding_x) ≤ _
      rw [hsum]; omega
    · obtain ⟨h1, h2, h3, h4⟩ := ih _ r hr
      refine ⟨by omega, ?_, h3, h4⟩
      rw [hsum]; omega

/-- C6: after `updateHeader()` on a strip (its four vectors of one length) the call
returns, the tabs are laid out contiguously from the header origin, each tab is as wide
as padding + measured title width + padding, and `tabs_area.w` is the sum of the tab
widths. -/
theorem C6_updateHeader_contiguous (env : Env) (s : State) (hwf : WF s) :
    ∃ s', updateHeader env s = some s' ∧
      s'.tabs.length = s.tabs.length ∧ s'.titles = s.titles ∧
      s'.tabs_area.x = s.tabs_area.x ∧
      (∀ r : Rect, s'.tabs[0]? = some r → r.x = s'.tabs_area.x) ∧
      (∀ (i : Nat) (a b : Rect), s'.tabs[i]? = some a → s'.tabs[i + 1]? = some b →
        b.x = a.x + a.w) ∧
      (∀ (i : Nat) (r : Rect), s'.tabs[i]? = some r → ∃ t, s'.titles[i]? = some t ∧
        r.w = env.tab_padding_x + env.calc_width t + env.tab_padding_x) ∧
      s'.tabs_area.w = (s'.tabs.map Rect.w).sum := by
  obtain ⟨s', e1, e2, e3, e4, _⟩ := updateHeader_spec env s hwf
  refine ⟨s', e1, ?_, e2, ?_, ?_, ?_, ?_, ?_⟩
  · rw [e3, layoutRects_length, hwf.1]
  · rw [e4]
  · intro r hr
    rw [e3] at hr
    rw [e4]
    exact layoutRects_head env _ _ _ _ r hr
  · intro i a b ha hb
    rw [e3] at ha hb
    exact layoutRects_adjacent env _ _ _ _ i a b ha hb
  · intro i r hr
    rw [e3] at hr
    obtain ⟨t, ht, hw, _⟩ := layoutRects_width env _ _ _ _ i r hr
    exact ⟨t, by rw [e2]; exact ht, hw⟩
  · rw [e3, e4, layoutRects_sum]

/-- C6 (worked example): titles "A", "BB", "CCC", padding 4, measured widths 6, 10, 14,
origin (0,0): widths 14, 18, 22, x-offsets 0, 14, 32, header width 54. -/
theorem C6_updateHeader_contiguous_witness :
    WF exampleTitled ∧
    (∃ s', updateHeader exampleEnv exampleTitled = some s' ∧
      s'.tabs.length = exampleTitled.tabs.length ∧ s'.titles = exampleTitled.titles ∧
      s'.tabs_area.x = exampleTitled.tabs_area.x ∧
      (∀ r : Rect, s'.tabs[0]? = some r → r.x = s'.tabs_area.x) ∧
      (∀ (i : Nat) (a b : Rect), s'.tabs[i]? = some a → s'.tabs[i + 1]? = some b →
        b.x = a.x + a.w) ∧
      (∀ (i : Nat) (r : Rect), s'.tabs[i]? = some r → ∃ t, s'.titles[i]? = some t ∧
        r.w = exampleEnv.tab_padding_x + exampleEnv.calc_width t + exampleEnv.tab_padding_x) ∧
      s'.tabs_area.w = (s'.tabs.map Rect.w).sum) ∧
    (updateHeader exampleEnv exampleTitled).map
        (fun s => (s.tabs.map (fun r => (r.x, r.w)), s.tabs_area.x, s.tabs_area.w)) =
      some ([(0, 14), (14, 18), (32, 22)], 0, 54) :=
  ⟨⟨rfl, rfl, rfl⟩, C6_updateHeader_contiguous exampleEnv exampleTitled ⟨rfl, rfl, rfl⟩, rfl⟩

/-! ## logic -/

theorem logicScan_first (m : Point) (tabs : List Rect) :
    ∀ (k i : Nat) (r : Rect), tabs[i]? = some r → isWithinRect r m = true →
      (∀ (j : Nat) (q : Rect), j < i → tabs[j]? = some q → isWithinRect q m = false) →
      logicScan m tabs k = some (k + i) := by
  induction tabs with
  | nil => intro k i r hr; simp at hr
  | cons a rest ih =>
    intro k i r hr hin hfirst
    cases i with
    | zero =>
      simp at hr
      subst hr
      simp [logicScan, hin]
    | succ i =>
      have ha : isWithinRect a m = false := hfirst 0 a (by omega) (by simp)
      simp only [logicScan, ha]
      have h := ih (k + 1) i r (by simpa using hr) hin
        (fun j q hj hq => hfirst (j + 1) q (by omega) (by simpa using hq))
      rw [h]
      simp
      omega

theorem logicScan_none (m : Point) (tabs : List Rect) :
    ∀ k : Nat, (∀ r ∈ tabs, isWithinRect r m = false) → logicScan m tabs k = none := by
  induction tabs with
  | nil => intro k _; rfl
  | cons a rest ih =>
    intro k h
    have ha : isWithinRect a m = false := h a (by simp)
    simp only [logicScan, ha]
    exact ih (k + 1) (fun r hr => h r (by simp [hr]))

theorem isWithinRect_iff (r : Rect) (m : Point) :
    isWithinRect r m = true ↔ r.x ≤ m.x ∧ r.y ≤ m.y ∧ m.x < r.x + r.w ∧ m.y < r.y + r.h := by
  unfold isWithinRect
  simp [and_assoc]

theorem within_tab_within_area (env : Env) (s0 s : State) (hwf : WF s0)
    (hlay : updateHeader env s0 = some s) (hpad : 0 ≤ env.tab_padding_x)
    (hcw : ∀ t, 0 ≤ env.calc_width t) (m : Point) (r : Rect) (hr : r ∈ s.tabs)
    (hin : isWithinRect r m = true) : isWithinRect s.tabs_area m = true := by
  obtain ⟨s', e1, _, e3, e4, _⟩ := updateHeader_spec env s0 hwf
  rw [hlay] at e1
  cases e1
  rw [e3] at hr
  have hw : ∀ t, 0 ≤ env.tab_padding_x + env.calc_width t + env.tab_padding_x := by
    intro t
    have := hcw t
    omega
  obtain ⟨b1, b2, b3, b4⟩ := layoutRects_bounds env _ _ hw _ _ r hr
  rw [isWithinRect_iff] at hin ⊢
  rw [e4]
  simp only
  obtain ⟨i1, i2, i3, i4⟩ := hin
  refine ⟨by omega, by omega, by omega, by omega⟩

theorem logic_hit (s : State) (x y : Int) (i : Nat) (r : Rect)
    (harea : isWithinRect s.tabs_area ⟨x, y⟩ = true) (hr : s.tabs[i]? = some r)
    (hin : isWithinRect r ⟨x, y⟩ = true)
    (hfirst : ∀ (j : Nat) (q : Rect), j < i → s.tabs[j]? = some q →
      isWithinRect q ⟨x, y⟩ = false) :
    logic s x y true = { s with active_tab := i } := by
  unfold logic
  have h := logicScan_first ⟨x, y⟩ s.tabs 0 i r hr hin hfirst
  simp [harea, h]

theorem logic_miss (s : State) (x y : Int) (pressed : Bool)
    (h : isWithinRect s.tabs_area ⟨x, y⟩ = false ∨ pressed = false ∨
      ∀ r ∈ s.tabs, isWithinRect r ⟨x, y⟩ = false) :
    logic s x y pressed = s := by
  unfold logic
  rcases h with h | h | h
  · simp [h]
  · simp [h]
  · rw [logicScan_none _ _ 0 h]
    simp

/-- C8: on a strip laid out by `updateHeader`, `logic(x, y)` with the primary action
pressed activates the lowest tab whose rectangle contains the pointer, and leaves the
state unchanged when the pointer is outside `tabs_area`, the action is not pressed, or no
tab contains the pointer.  The code tests `tabs_area` first: with non-negative padding
and measured widths every tab rectangle lies inside `tabs_area`, so a pointer within a
tab passes that test. -/
theorem C8_logic_first_match (env : Env) (s0 s : State) (x y : Int) (pressed : Bool)
    (hwf : WF s0) (hlay : updateHeader env s0 = some s) :
    (0 ≤ env.tab_padding_x → (∀ t, 0 ≤ env.calc_width t) →
      ∀ (i : Nat) (r : Rect), pressed = true → s.tabs[i]? = some r →
        isWithinRect r ⟨x, y⟩ = true →
        (∀ (j : Nat) (q : Rect), j < i → s.tabs[j]? = some q →
          isWithinRect q ⟨x, y⟩ = false) →
        logic s x y pressed = { s with active_tab := i }) ∧
    (∀ (i : Nat) (r : Rect), pressed = true → isWithinRect s.tabs_area ⟨x, y⟩ = true →
        s.tabs[i]? = some r → isWithinRect r ⟨x, y⟩ = true →
        (∀ (j : Nat) (q : Rect), j < i → s.tabs[j]? = some q →
          isWithinRect q ⟨x, y⟩ = false) →
        logic s x y pressed = { s with active_tab := i }) ∧
    ((isWithinRect s.tabs_area ⟨x, y⟩ = false ∨ pressed = false ∨
        ∀ r ∈ s.tabs, isWithinRect r ⟨x, y⟩ = false) →
      logic s x y pressed = s) := by
  refine ⟨?_, ?_, logic_miss s x y pressed⟩
  · intro hpad hcw i r hp hr hin hfirst
    subst hp
    have harea := within_tab_within_area env s0 s hwf hlay hpad hcw ⟨x, y⟩ r
      (List.getElem?_mem hr) hin
    exact logic_hit s x y i r harea hr hin hfirst
  · intro i r hp harea hr hin hfirst
    subst hp
    exact logic_hit s x y i r harea hr hin hfirst

theorem exampleEnv_calc_width_nonneg : ∀ t, 0 ≤ exampleEnv.calc_width t := by
  intro t
  show (0 : Int) ≤ 4 * (t.length : Int) + 2
  omega

/-- C8 (worked example): on the laid-out strip of the example (tab 1 spans x 14..32,
y 0..10) a press at (20, 5) activates tab 1; a press at (20, 50), outside the header,
changes nothing. -/
theorem C8_logic_first_match_witness :
    (WF exampleOrigin ∧ updateHeader exampleEnv exampleOrigin = some exampleStrip ∧
      0 ≤ exampleEnv.tab_padding_x ∧ (∀ t, 0 ≤ exampleEnv.calc_width t)) ∧
    logic exampleStrip 20 5 true = { exampleStrip with active_tab := 1 } ∧
    logic exampleStrip 20 50 true = exampleStrip :=
  ⟨⟨⟨rfl, rfl, rfl⟩, rfl, by decide, exampleEnv_calc_width_nonneg⟩,
    (C8_logic_first_match exampleEnv exampleOrigin exampleStrip 20 5 true
      ⟨rfl, rfl, rfl⟩ rfl).1 (by decide) exampleEnv_calc_width_nonneg 1 ⟨14, 0, 18, 10⟩
      rfl rfl rfl
      (by
        intro j q hj hq
        have hj0 : j = 0 := by omega
        subst hj0
        have h0 : exampleStrip.tabs[0]? = some ⟨0, 0, 14, 10⟩ := rfl
        rw [h0] at hq
        cases hq
        rfl),
    (C8_logic_first_match exampleEnv exampleOrigin exampleStrip 20 50 true
      ⟨rfl, rfl, rfl⟩ rfl).2.2 (Or.inl rfl)⟩

/-! ## renderTab -/

theorem renderTabLoop_zero (pad G : Int) (tab : Rect) (active : Bool) (c : Int) :
    renderTabLoop pad G tab active 0 c = (c, []) := rfl

theorem renderTabLoop_succ_run (pad G : Int) (tab : Rect) (active : Bool) (n : Nat) (c : Int)
    (h : c < tab.w - pad) :
    renderTabLoop pad G tab active (n + 1) c =
      ((renderTabLoop pad G tab active n (c + sliceWidth pad G tab c)).1,
        tileSlice pad G tab active c ::
          (renderTabLoop pad G tab active n (c + sliceWidth pad G tab c)).2) := by
  simp [renderTabLoop, h]

theorem renderTabLoop_succ_stop (pad G : Int) (tab : Rect) (active : Bool) (n : Nat) (c : Int)
    (h : ¬ c < tab.w - pad) :
    renderTabLoop pad G tab active (n + 1) c = (c, []) := by
  simp [renderTabLoop, h]

/-- The cursor after `n + 1` iterations is one iteration applied to the cursor after `n`. -/
theorem renderTabLoop_cursor_succ (pad G : Int) (tab : Rect) (active : Bool) (n : Nat) :
    ∀ c : Int, (renderTabLoop pad G tab active (n + 1) c).1 =
      if (renderTabLoop pad G tab active n c).1 < tab.w - pad then
        (renderTabLoop pad G tab active n c).1 +
          sliceWidth pad G tab (renderTabLoop pad G tab active n c).1
      else (renderTabLoop pad G tab active n c).1 := by
  induction n with
  | zero =>
    intro c
    by_cases h : c < tab.w - pad
    · rw [renderTabLoop_succ_run _ _ _ _ _ _ h]
      simp [renderTabLoop_zero, h]
    · rw [renderTabLoop_succ_stop _ _ _ _ _ _ h]
      simp [renderTabLoop_zero, h]
  | succ n ih =>
    intro c
    by_cases h : c < tab.w - pad
    · rw [renderTabLoop_succ_run _ _ _ _ (n + 1) _ h, renderTabLoop_succ_run _ _ _ _ n _ h]
      exact ih _
    · rw [renderTabLoop_succ_stop _ _ _ _ _ _ h, renderTabLoop_succ_stop _ _ _ _ _ _ h]
      simp [h]

/-- Every slice of the tiling loop ends at or before the right boundary of the tab. -/
theorem renderTabLoop_right_le (pad G : Int) (tab : Rect) (active : Bool) (n : Nat) :
    ∀ c : Int, ∀ sl ∈ (renderTabLoop pad G tab active n c).2,
      sl.dest.x + sl.src.w ≤ tab.x + tab.w := by
  induction n with
  | zero => intro c sl hsl; simp [renderTabLoop_zero] at hsl
  | succ n ih =>
    intro c sl hsl
    by_cases h : c < tab.w - pad
    · rw [renderTabLoop_succ_run _ _ _ _ _ _ h] at hsl
      simp only [List.mem_cons] at hsl
      rcases hsl with hsl | hsl
      · subst hsl
        simp only [tileSlice]
        split_ifs <;> omega
      · exact ih _ sl hsl
    · rw [renderTabLoop_succ_stop _ _ _ _ _ _ h] at hsl
      simp at hsl

/-- One iteration from an admissible cursor draws a slice of positive width and reaches
an admissible cursor, when the tab fits in the image or the image is wider than twice
the padding. -/
theorem step_ok (pad G : Int) (tab : Rect) (c : Int) (hp : 0 ≤ pad)
    (hG : tab.w ≤ G ∨ 2 * pad < G) (hc : CursorOk pad G tab c) (hrun : c < tab.w - pad) :
    0 < sliceWidth pad G tab c ∧ CursorOk pad G tab (c + sliceWidth pad G tab c) := by
  unfold CursorOk at *
  unfold sliceWidth
  split_ifs <;> constructor <;> omega

theorem reach_ok (pad G : Int) (tab : Rect) (active : Bool) (hp : 0 ≤ pad)
    (hG : tab.w ≤ G ∨ 2 * pad < G) (n : Nat) :
    CursorOk pad G tab (renderTabLoop pad G tab active n 0).1 := by
  induction n with
  | zero => exact Or.inl rfl
  | succ n ih =>
    rw [renderTabLoop_cursor_succ]
    split_ifs with h
    · exact (step_ok pad G tab _ hp hG ih h).2
    · exact ih

theorem loop_progress (pad G : Int) (tab : Rect) (active : Bool) (hp : 0 ≤ pad)
    (hG : tab.w ≤ G ∨ 2 * pad < G) (n : Nat) :
    tab.w - pad ≤ (renderTabLoop pad G tab active n 0).1 ∨
      (n : Int) ≤ (renderTabLoop pad G tab active n 0).1 := by
  induction n with
  | zero => right; simp [renderTabLoop_zero]
  | succ n ih =>
    rw [renderTabLoop_cursor_succ]
    split_ifs with h
    · have h1 := (step_ok pad G tab _ hp hG (reach_ok pad G tab active hp hG n) h).1
      right
      push_cast
      omega
    · left
      omega

theorem loop_terminates (pad G : Int) (tab : Rect) (active : Bool) (hp : 0 ≤ pad)
    (hG : tab.w ≤ G ∨ 2 * pad < G) :
    ¬ (renderTabLoop pad G tab active (tab.w - pad).toNat 0).1 < tab.w - pad := by
  have h := loop_progress pad G tab active hp hG (tab.w - pad).toNat
  have h2 : tab.w - pad ≤ ((tab.w - pad).toNat : Int) := Int.self_le_toNat _
  omega

/-- With an image at most twice the padding wide and a tab wider than the image, the
cursor never gets past `max 0 (G - pad)`. -/
theorem loop_stuck (pad G : Int) (tab : Rect) (active : Bool)
    (hG : G ≤ 2 * pad) (hw : G < tab.w) (n : Nat) :
    (renderTabLoop pad G tab active n 0).1 ≤ 0 ∨
      (renderTabLoop pad G tab active n 0).1 ≤ G - pad := by
  induction n with
  | zero => left; simp [renderTabLoop_zero]
  | succ n ih =>
    rw [renderTabLoop_cursor_succ]
    split_ifs with h
    · unfold sliceWidth
      split_ifs <;> omega
    · exact ih

/-- C9: for padding ≥ 0 and a tab with `tab.w ≥ padding`, every slice the tiling loop
draws (after any number of iterations, whether or not the loop ends) has
`dest.x + src.w ≤ tab.x + tab.w`, the right-edge slice ends exactly at `tab.x + tab.w`,
and so every slice of a completed `renderTab` stays within the right boundary. -/
theorem C9_renderTab_within_right_bound (pad G : Int) (tab : Rect) (active : Bool)
    (hp : 0 ≤ pad) (hw : pad ≤ tab.w) :
    (∀ (n : Nat), ∀ sl ∈ (renderTabLoop pad G tab active n 0).2,
      sl.dest.x + sl.src.w ≤ tab.x + tab.w) ∧
    (edgeSlice pad G tab active).dest.x + (edgeSlice pad G tab active).src.w =
      tab.x + tab.w ∧
    (∀ (fuel : Nat) (slices : List Slice), renderTabSlices pad G tab active fuel = some slices →
      ∀ sl ∈ slices, sl.dest.x + sl.src.w ≤ tab.x + tab.w) := by
  have _ := hp
  have _ := hw
  have hedge : (edgeSlice pad G tab active).dest.x + (edgeSlice pad G tab active).src.w =
      tab.x + tab.w := by
    simp only [edgeSlice]
    omega
  refine ⟨fun n => renderTabLoop_right_le pad G tab active n 0, hedge, ?_⟩
  intro fuel slices hs sl hsl
  dsimp only [renderTabSlices] at hs
  split_ifs at hs
  cases hs
  rw [List.mem_append] at hsl
  rcases hsl with hsl | hsl
  · exact renderTabLoop_right_le pad G tab active fuel 0 sl hsl
  · simp only [List.mem_singleton] at hsl
    subst hsl
    omega

/-- C9, at padding 4, image width 20 and a tab of width 45 at the origin: the fourth
loop slice starts at 40 and is shrunk from 12 to 5, so it ends at 45. -/
theorem C9_renderTab_within_right_bound_witness :
    ((0 : Int) ≤ 4 ∧ (4 : Int) ≤ (⟨0, 0, 45, 10⟩ : Rect).w) ∧
    ((∀ (n : Nat), ∀ sl ∈ (renderTabLoop 4 20 ⟨0, 0, 45, 10⟩ true n 0).2,
      sl.dest.x + sl.src.w ≤ (⟨0, 0, 45, 10⟩ : Rect).x + (⟨0, 0, 45, 10⟩ : Rect).w) ∧
    (edgeSlice 4 20 ⟨0, 0, 45, 10⟩ true).dest.x + (edgeSlice 4 20 ⟨0, 0, 45, 10⟩ true).src.w =
      (⟨0, 0, 45, 10⟩ : Rect).x + (⟨0, 0, 45, 10⟩ : Rect).w ∧
    (∀ (fuel : Nat) (slices : List Slice),
      renderTabSlices 4 20 ⟨0, 0, 45, 10⟩ true fuel = some slices →
      ∀ sl ∈ slices, sl.dest.x + sl.src.w ≤
        (⟨0, 0, 45, 10⟩ : Rect).x + (⟨0, 0, 45, 10⟩ : Rect).w)) ∧
    (renderTabSlices 4 20 ⟨0, 0, 45, 10⟩ true 4).map
        (fun l => l.map (fun sl => (sl.dest.x, sl.src.w))) =
      some [(0, 16), (16, 12), (28, 12), (40, 5), (41, 4)] :=
  ⟨⟨by decide, by decide⟩,
    C9_renderTab_within_right_bound 4 20 ⟨0, 0, 45, 10⟩ true (by decide) (by decide), rfl⟩

/-- C10: with padding ≥ 0 and an image wider than twice the padding, the render cursor
strictly increases on every iteration of the tiling loop and the loop ends, for every
tab; with an image at most twice the padding wide and a tab wider than the image, the
middle slice width is ≤ 0, and the loop, once entered (`tab.w > padding`), never ends. -/
theorem C10_tiling_loop_termination (pad G : Int) (tab : Rect) (active : Bool)
    (hp : 0 ≤ pad) :
    (2 * pad < G →
      (∀ n : Nat, (renderTabLoop pad G tab active n 0).1 < tab.w - pad →
        (renderTabLoop pad G tab active n 0).1 <
          (renderTabLoop pad G tab active (n + 1) 0).1) ∧
      ∃ fuel : Nat, (renderTabSlices pad G tab active fuel).isSome = true) ∧
    (G ≤ 2 * pad → G < tab.w →
      (∀ c : Int, c ≠ 0 → sliceWidth pad G tab c ≤ 0) ∧
      (pad < tab.w → ∀ fuel : Nat, renderTabSlices pad G tab active fuel = none)) := by
  constructor
  · intro hG
    constructor
    · intro n hn
      rw [renderTabLoop_cursor_succ, if_pos hn]
      have h := (step_ok pad G tab _ hp (Or.inr hG)
        (reach_ok pad G tab active hp (Or.inr hG) n) hn).1
      omega
    · refine ⟨(tab.w - pad).toNat, ?_⟩
      have hend := loop_terminates pad G tab active hp (Or.inr hG)
      unfold renderTabSlices
      simp only [hend, if_false, Option.isSome_some]
  · intro hG hw
    constructor
    · intro c hc
      unfold sliceWidth
      rw [if_neg hc]
      split_ifs <;> omega
    · intro hpw fuel
      have h := loop_stuck pad G tab active hG hw fuel
      have hlt : (renderTabLoop pad G tab active fuel 0).1 < tab.w - pad := by omega
      unfold renderTabSlices
      simp only [hlt, if_true]

/-- C10, at padding 4: image width 20 and tab width 45 (the loop ends), and image width
8 and tab width 20 (the cursor stays at 4 and the loop never ends). -/
theorem C10_tiling_loop_termination_witness :
    ((0 : Int) ≤ 4 ∧ (2 : Int) * 4 < 20 ∧
      (∀ n : Nat, (renderTabLoop 4 20 ⟨0, 0, 45, 10⟩ true n 0).1 < (⟨0, 0, 45, 10⟩ : Rect).w - 4 →
        (renderTabLoop 4 20 ⟨0, 0, 45, 10⟩ true n 0).1 <
          (renderTabLoop 4 20 ⟨0, 0, 45, 10⟩ true (n + 1) 0).1) ∧
      ∃ fuel : Nat, (renderTabSlices 4 20 ⟨0, 0, 45, 10⟩ true fuel).isSome = true) ∧
    ((8 : Int) ≤ 2 * 4 ∧ (8 : Int) < (⟨0, 0, 20, 10⟩ : Rect).w ∧
      (4 : Int) < (⟨0, 0, 20, 10⟩ : Rect).w ∧
      (∀ c : Int, c ≠ 0 → sliceWidth 4 8 ⟨0, 0, 20, 10⟩ c ≤ 0) ∧
      (∀ fuel : Nat, renderTabSlices 4 8 ⟨0, 0, 20, 10⟩ true fuel = none) ∧
      (renderTabLoop 4 8 ⟨0, 0, 20, 10⟩ true 5 0).1 = 4) :=
  ⟨⟨by decide, by decide,
      ((C10_tiling_loop_termination 4 20 ⟨0, 0, 45, 10⟩ true (by decide)).1 (by decide)).1,
      ((C10_tiling_loop_termination 4 20 ⟨0, 0, 45, 10⟩ true (by decide)).1 (by decide)).2⟩,
    ⟨by decide, by decide, by decide,
      ((C10_tiling_loop_termination 4 8 ⟨0, 0, 20, 10⟩ true (by decide)).2
        (by decide) (by decide)).1,
      ((C10_tiling_loop_termination 4 8 ⟨0, 0, 20, 10⟩ true (by decide)).2
        (by decide) (by decide)).2 (by decide),
      rfl⟩⟩

/-! ## setTabTitle below the largest index, and the invariants of the widget -/

theorem resize_length {α : Type} (d : α) (l : List α) (n : Nat) : (resize d l n).length = n := by
  unfold resize
  simp
  omega

theorem resize_grow {α : Type} (d : α) (l : List α) (n : Nat) (h : l.length ≤ n) :
    resize d l n = l ++ List.replicate (n - l.length) d := by
  unfold resize
  rw [List.take_of_length_le h]

/-- What one `setTabTitle(index, title)` does when `index+1` does not wrap. -/
theorem setTabTitle_spec (s : State) (index : Nat) (title : String) (hwf : WF s)
    (hi : index + 1 < UINT_MOD) :
    ∃ s', setTabTitle s index title = some s' ∧ WF s' ∧
      s'.tabs.length = max s.tabs.length (index + 1) ∧
      s'.titles[index]? = some title ∧
      (∀ j, j ≠ index → j < s.titles.length → s'.titles[j]? = s.titles[j]?) ∧
      (∀ j, j ≠ index → s.titles.length ≤ j → j < s'.titles.length →
        s'.titles[j]? = some "") ∧
      s'.active_tab = s.active_tab ∧ s'.tabs_area = s.tabs_area := by
  obtain ⟨w1, w2, w3⟩ := hwf
  have hm : (index + 1) % UINT_MOD = index + 1 := Nat.mod_eq_of_lt hi
  unfold setTabTitle
  simp only [hm]
  by_cases hg : index + 1 > s.titles.length
  · simp only [hg, if_true, resize_length, Nat.lt_succ_self]
    refine ⟨_, rfl, ?_, ?_, ?_, ?_, ?_, rfl, rfl⟩
    · simp [WF, resize_length]
    · simp only [resize_length]
      omega
    · simp [resize_length]
    · intro j hj hlt
      simp only
      rw [List.getElem?_set_ne (by omega), resize_grow _ _ _ (by omega),
        List.getElem?_append_left hlt]
    · intro j hj hle hlt
      simp only [List.length_set, resize_length] at hlt
      simp only
      rw [List.getElem?_set_ne (by omega), resize_grow _ _ _ (by omega),
        List.getElem?_append_right hle]
      exact List.getElem?_replicate_of_lt (by omega)
  · have hlt : index < s.titles.length := by omega
    simp only [hg, if_false, hlt, if_true]
    refine ⟨_, rfl, ?_, ?_, ?_, ?_, ?_, rfl, rfl⟩
    · simp [WF, w1, w2, w3]
    · simp only
      omega
    · simp [hlt]
    · intro j hj _
      simp only
      rw [List.getElem?_set_ne (by omega)]
    · intro j hj hle hlt2
      simp only [List.length_set] at hlt2
      omega

theorem setTabTitles_general (calls : List (Nat × String)) :
    ∀ s : State, WF s → calls.Pairwise (fun a b => a.1 < b.1) →
      (∀ c ∈ calls, c.1 + 1 < UINT_MOD) → (∀ c ∈ calls, s.titles.length ≤ c.1) →
      ∃ s', setTabTitles calls s = some s' ∧ WF s' ∧
        s.titles.length ≤ s'.titles.length ∧
        (∀ j, j < s.titles.length → s'.titles[j]? = s.titles[j]?) ∧
        (∀ c ∈ calls, s'.titles[c.1]? = some c.2) ∧
        (∀ j, s.titles.length ≤ j → j < s'.titles.length → (∀ c ∈ calls, c.1 ≠ j) →
          s'.titles[j]? = some "") ∧
        (∀ m, (∀ c ∈ calls, c.1 ≤ m) → (∃ c ∈ calls, c.1 = m) → s'.titles.length = m + 1) := by
  induction calls with
  | nil =>
    intro s hwf _ _ _
    refine ⟨s, rfl, hwf, le_refl _, fun _ _ => rfl, ?_, ?_, ?_⟩
    · intro c hc; simp at hc
    · intro j h1 h2; omega
    · intro m _ h; obtain ⟨c, hc, _⟩ := h; simp at hc
  | cons c rest ih =>
    intro s hwf hsorted hbound hge
    rw [List.pairwise_cons] at hsorted
    obtain ⟨hhead, hrest⟩ := hsorted
    have hc1 : s.titles.length ≤ c.1 := hge c (by simp)
    obtain ⟨s1, e1, wf1, len1, at1, old1, gap1, _, _⟩ :=
      setTabTitle_spec s c.1 c.2 hwf (hbound c (by simp))
    have hl1 : s1.titles.length = c.1 + 1 := by
      rw [wf1.1, len1, ← hwf.1]
      omega
    obtain ⟨s2, e2, wf2, le2, old2, set2, gap2, max2⟩ := ih s1 wf1 hrest
      (fun d hd => hbound d (by simp [hd]))
      (fun d hd => by have := hhead d hd; omega)
    refine ⟨s2, ?_, wf2, by omega, ?_, ?_, ?_, ?_⟩
    · simp only [setTabTitles, e1, Option.bind]
      exact e2
    · intro j hj
      rw [old2 j (by omega), old1 j (by omega) hj]
    · intro d hd
      rw [List.mem_cons] at hd
      rcases hd with hd | hd
      · subst hd
        rw [old2 _ (by omega), at1]
      · exact set2 d hd
    · intro j h1 h2 hne
      have hjc : j ≠ c.1 := fun h => hne c (by simp) h.symm
      by_cases hj : j < s1.titles.length
      · rw [old2 j hj]
        exact gap1 j hjc h1 hj
      · exact gap2 j (by omega) h2 (fun d hd => hne d (by simp [hd]))
    · intro m hall hex
      obtain ⟨d, hd, hdm⟩ := hex
      rw [List.mem_cons] at hd
      rcases hd with hd | hd
      · subst hd
        cases rest with
        | nil =>
          simp only [setTabTitles] at e2
          cases e2
          rw [hl1, hdm]
        | cons r rs =>
          have h1 := hhead r (by simp)
          have h2 := hall r (by simp)
          omega
      · exact max2 m (fun r hr => hall r (by simp [hr])) ⟨d, hd, hdm⟩

/-- Below the largest index `setTabTitle` grows the strip as documented: after calls with
strictly increasing indices, all below `2^32 - 1`, on a freshly constructed strip, the four
vectors have length (largest index + 1), every index that was set holds its title, and
every other slot holds the empty title. -/
theorem setTabTitles_increasing (calls : List (Nat × String))
    (hsorted : calls.Pairwise (fun a b => a.1 < b.1))
    (hbound : ∀ c ∈ calls, c.1 + 1 < UINT_MOD) :
    ∃ s', setTabTitles calls fresh = some s' ∧ WF s' ∧
      (∀ m, (∀ c ∈ calls, c.1 ≤ m) → (∃ c ∈ calls, c.1 = m) → s'.titles.length = m + 1) ∧
      (∀ c ∈ calls, s'.titles[c.1]? = some c.2) ∧
      (∀ j, j < s'.titles.length → (∀ c ∈ calls, c.1 ≠ j) → s'.titles[j]? = some "") := by
  obtain ⟨s', e, wf, _, _, hset, hgap, hmax⟩ :=
    setTabTitles_general calls fresh ⟨rfl, rfl, rfl⟩ hsorted hbound (fun c _ => Nat.zero_le _)
  exact ⟨s', e, wf, hmax, hset, fun j hj hne => hgap j (Nat.zero_le _) hj hne⟩

theorem setActiveTab_fields (t : State) (n : Nat) :
    (setActiveTab t n).titles = t.titles ∧ (setActiveTab t n).tabs = t.tabs ∧
      (setActiveTab t n).active_labels = t.active_labels ∧
      (setActiveTab t n).inactive_labels = t.inactive_labels := by
  unfold setActiveTab
  split_ifs <;> exact ⟨rfl, rfl, rfl, rfl⟩

theorem setActiveTab_WF (t : State) (n : Nat) (h : WF t) : WF (setActiveTab t n) := by
  obtain ⟨h1, h2, h3, h4⟩ := setActiveTab_fields t n
  unfold WF at *
  rw [h1, h2, h3, h4]
  exact h

theorem getNext_WF (s : State) (h : WF s) : WF (getNext s) := by
  unfold getNext
  apply setActiveTab_WF
  exact ⟨h.1, h.2.1, h.2.2⟩

theorem getPrev_WF (s : State) (h : WF s) : WF (getPrev s) := by
  unfold getPrev
  apply setActiveTab_WF
  exact ⟨h.1, h.2.1, h.2.2⟩

/-- Every call keeps the four vectors at one common length. -/
theorem step_WF (env : Env) (s s' : State) (op : Op) (hwf : WF s)
    (h : step env s op = some s') : WF s' := by
  cases op with
  | setTabTitle index title =>
    change setTabTitle s index title = some s' at h
    dsimp only [setTabTitle] at h
    split_ifs at h with h1 h2 h3
    · cases h
      simp [WF, resize_length]
    · cases h
      simpa [WF] using hwf
  | setActiveTab tab =>
    change some (setActiveTab s tab) = some s' at h
    have h2 := Option.some.inj h
    subst h2
    exact setActiveTab_WF s tab hwf
  | getNext =>
    change some (getNext s) = some s' at h
    have h2 := Option.some.inj h
    subst h2
    exact getNext_WF s hwf
  | getPrev =>
    change some (getPrev s) = some s' at h
    have h2 := Option.some.inj h
    subst h2
    exact getPrev_WF s hwf
  | updateHeader =>
    change updateHeader env s = some s' at h
    obtain ⟨t, e1, e2, e3, _, _, e6, e7, _⟩ := updateHeader_spec env s hwf
    rw [h] at e1
    cases e1
    refine ⟨?_, ?_, ?_⟩
    · rw [e3, layoutRects_length, e2]
    · rw [e6, e3, layoutRects_length, hwf.2.1, hwf.1]
    · rw [e7, e3, layoutRects_length, hwf.2.2, hwf.1]
  | setMainArea x y =>
    change updateHeader env { s with tabs_area := ⟨x, y, 0, getTabHeight env⟩ } = some s' at h
    obtain ⟨t, e1, e2, e3, _, _, e6, e7, _⟩ :=
      updateHeader_spec env { s with tabs_area := ⟨x, y, 0, getTabHeight env⟩ } hwf
    rw [h] at e1
    cases e1
    refine ⟨?_, ?_, ?_⟩
    · rw [e3, layoutRects_length, e2]
    · rw [e6, e3, layoutRects_length]
      exact hwf.2.1.trans hwf.1.symm
    · rw [e7, e3, layoutRects_length]
      exact hwf.2.2.trans hwf.1.symm
  | logic x y pressed =>
    change some (logic s x y pressed) = some s' at h
    cases h
    unfold logic
    split_ifs
    · split <;> exact hwf
    · exact hwf

/-- Every state reached from a freshly constructed widget has its four vectors at one
common length. -/
theorem run_WF (env : Env) (ops : List Op) :
    ∀ s s' : State, WF s → run env ops s = some s' → WF s' := by
  induction ops with
  | nil =>
    intro s s' hwf h
    change some s = some s' at h
    cases h
    exact hwf
  | cons op ops ih =>
    intro s s' hwf h
    change (step env s op).bind (run env ops) = some s' at h
    cases hstep : step env s op with
    | none => rw [hstep] at h; cases h
    | some t =>
      rw [hstep] at h
      exact ih t s' (step_WF env s t op hwf hstep) h

theorem setActiveTab_valid (t : State) (n : Nat) (h0 : 0 < t.tabs.length)
    (hn : t.tabs.length < UINT_MOD) : ActiveValid (setActiveTab t n) := by
  rw [setActiveTab_nonempty t n h0 hn]
  refine ⟨hn, ?_⟩
  show (if n < t.tabs.length then n else if n = t.tabs.length then t.tabs.length - 1 else 0)
    < t.tabs.length
  split_ifs <;> omega

theorem logicScan_lt (m : Point) (tabs : List Rect) :
    ∀ k i : Nat, logicScan m tabs k = some i → i < k + tabs.length := by
  induction tabs with
  | nil => intro k i h; simp [logicScan] at h
  | cons a rest ih =>
    intro k i h
    simp only [logicScan] at h
    split_ifs at h
    · have h2 := Option.some.inj h
      simp only [List.length_cons]
      omega
    · have := ih (k + 1) i h
      simp only [List.length_cons]
      omega

/-- On a non-empty strip every call keeps the active index inside the strip. -/
theorem step_active_valid (env : Env) (s s' : State) (op : Op) (hwf : WF s)
    (hv : ActiveValid s) (h : step env s op = some s') : ActiveValid s' := by
  obtain ⟨hn, ha⟩ := hv
  have h0 : 0 < s.tabs.length := by omega
  cases op with
  | setTabTitle index title =>
    change setTabTitle s index title = some s' at h
    dsimp only [setTabTitle] at h
    have hmod : (index + 1) % UINT_MOD < UINT_MOD := Nat.mod_lt _ (by unfold UINT_MOD; omega)
    split_ifs at h with h1 h2 h3
    · have h4 := Option.some.inj h
      subst h4
      refine ⟨?_, ?_⟩
      · simpa [resize_length] using hmod
      · simp only [resize_length]
        rw [hwf.1] at h1
        omega
    · have h4 := Option.some.inj h
      subst h4
      exact ⟨hn, ha⟩
  | setActiveTab tab =>
    change some (setActiveTab s tab) = some s' at h
    have h2 := Option.some.inj h
    subst h2
    exact setActiveTab_valid s tab h0 hn
  | getNext =>
    change some (getNext s) = some s' at h
    have h2 := Option.some.inj h
    subst h2
    unfold getNext
    exact setActiveTab_valid { s with active_tab := (s.active_tab + 1) % UINT_MOD } _ h0 hn
  | getPrev =>
    change some (getPrev s) = some s' at h
    have h2 := Option.some.inj h
    subst h2
    unfold getPrev
    exact setActiveTab_valid { s with active_tab := (s.active_tab + UINT_MOD - 1) % UINT_MOD } _
      h0 hn
  | updateHeader =>
    change updateHeader env s = some s' at h
    obtain ⟨t, e1, e2, e3, _, e5, _⟩ := updateHeader_spec env s hwf
    rw [h] at e1
    have h2 := Option.some.inj e1
    subst h2
    unfold ActiveValid
    rw [e3, layoutRects_length, e5, hwf.1]
    exact ⟨hn, ha⟩
  | setMainArea x y =>
    change updateHeader env { s with tabs_area := ⟨x, y, 0, getTabHeight env⟩ } = some s' at h
    obtain ⟨t, e1, e2, e3, _, e5, _⟩ :=
      updateHeader_spec env { s with tabs_area := ⟨x, y, 0, getTabHeight env⟩ } hwf
    rw [h] at e1
    have h2 := Option.some.inj e1
    subst h2
    unfold ActiveValid
    rw [e3, layoutRects_length, e5]
    show s.titles.length < UINT_MOD ∧ s.active_tab < s.titles.length
    rw [hwf.1]
    exact ⟨hn, ha⟩
  | logic x y pressed =>
    change some (logic s x y pressed) = some s' at h
    have h2 := Option.some.inj h
    subst h2
    unfold logic
    split_ifs
    · cases hscan : logicScan ⟨x, y⟩ s.tabs 0 with
      | none => exact ⟨hn, ha⟩
      | some i =>
        have := logicScan_lt _ _ 0 i hscan
        refine ⟨hn, ?_⟩
        show i < s.tabs.length
        omega
    · exact ⟨hn, ha⟩

/-- Once the strip is non-empty with its active index inside the strip, every sequence
of calls keeps it so. -/
theorem run_active_valid (env : Env) (ops : List Op) :
    ∀ s s' : State, WF s → ActiveValid s → run env ops s = some s' → ActiveValid s' := by
  induction ops with
  | nil =>
    intro s s' _ hv h
    change some s = some s' at h
    have h2 := Option.some.inj h
    subst h2
    exact hv
  | cons op ops ih =>
    intro s s' hwf hv h
    change (step env s op).bind (run env ops) = some s' at h
    cases hstep : step env s op with
    | none => rw [hstep] at h; cases h
    | some t =>
      rw [hstep] at h
      exact ih t s' (step_WF env s t op hwf hstep) (step_active_valid env s t op hwf hv hstep) h

end WidgetTabControl
